import Mathlib

/-!
Verification of the OncoAgent orchestration layer against its design
specification.  The Python sources under `src/oncoagent` and `app` are
shallowly embedded below: pure functions become Lean functions, the
LLM / network calls become oracle parameters, and the in-place mutation
of `Claim` objects is made explicit through a heap of claim records
addressed by index.  The LangGraph executor itself (`graph.py`,
`state.py`) is not part of the source tree, so the executor, the
reducer-based merge and the checkpoint flow are modelled from the spec
(sections 4.1, 4.4, 4.5) and marked as such in their doc comments.
-/

/-! ## String helpers mirroring the Python primitives used by the code -/

/-- Check that `n` is a leading segment of `h` (Python `str.startswith`,
used only as the inner loop of the substring test below). -/
def leadsWith : List Char → List Char → Bool
  | [], _ => true
  | _ :: _, [] => false
  | a :: as, b :: bs => a = b && leadsWith as bs

/-- Substring occurrence on character lists (the Python `needle in hay`
operator on strings). -/
def hasSubList (n : List Char) : List Char → Bool
  | [] => leadsWith n []
  | c :: t => leadsWith n (c :: t) || hasSubList n t

/-- Python `needle in hay` for strings. -/
def hasSub (hay needle : String) : Bool :=
  hasSubList needle.toList hay.toList

/-- Python `str.lower()` (ASCII case mapping, via `Char.toLower`). -/
def pyLower (s : String) : String :=
  String.mk (s.toList.map Char.toLower)

/-- Python `str.upper()` (ASCII case mapping, via `Char.toUpper`). -/
def pyUpper (s : String) : String :=
  String.mk (s.toList.map Char.toUpper)

/-- Drop leading whitespace from a character list. -/
def dropLeadWs : List Char → List Char
  | [] => []
  | c :: t => if c.isWhitespace then dropLeadWs t else c :: t

/-- Python `str.strip()`: remove leading and trailing whitespace. -/
def pyStrip (s : String) : String :=
  String.mk ((dropLeadWs (dropLeadWs s.toList).reverse).reverse)

/-- Accumulating splitter behind `pyWords`: emit maximal non-whitespace
runs, never an empty fragment. -/
def wordsAux : List Char → List Char → List String
  | [], acc => if acc = [] then [] else [String.mk acc.reverse]
  | c :: t, acc =>
    if c.isWhitespace then
      if acc = [] then wordsAux t []
      else String.mk acc.reverse :: wordsAux t []
    else wordsAux t (c :: acc)

/-- Python `str.split()` with no argument: split on whitespace runs and
drop empty fragments. -/
def pyWords (s : String) : List String :=
  wordsAux s.toList []

/-! ## Data model

`state.py` is not in the source tree; the `OncoAgentState` fields are
reconstructed from the initial state literal in `app/routes.py` (which
sets every key) and from every use site in the agents.  `Claim` objects
are pydantic models mutated in place by `cross_validator`, so the state
holds indices into a heap (`List ClaimRec`) instead of inline records:
this makes the Python aliasing of claim objects explicit. -/

/-- One conversation turn (`HumanMessage` / `AIMessage`). -/
inductive Msg where
  | human (content : String)
  | ai (content : String)
deriving DecidableEq, Repr

/-- A citation attached to a claim (shape used by `_extract_citations`). -/
structure Citation where
  source_type : String
  url : String
deriving DecidableEq, Repr

/-- A `Claim` pydantic record as used by `cross_validator` and `safety.py`. -/
structure ClaimRec where
  statement : String
  citations : List Citation
  confidence : String
  cross_validated : Bool
  validation_notes : String
deriving DecidableEq, Repr

/-- An entry of the `images` state field: uploaded image dicts built by
`_decode_image` (with `data` / `mime_type`) or analysis dicts written
back by `vision_agent` (with `analysis`). -/
structure ImageEntry where
  path : Option String
  itype : Option String
  data : Option (List Nat)
  mime_type : Option String
  analysis : Option String
deriving DecidableEq, Repr

/-- An evidence entry produced by `research_agent`. -/
structure Evidence where
  source : String
  title : String
  snippet : List String
  source_type : String
  retrieved_date : String
deriving DecidableEq, Repr

/-- A clinical-trial entry produced by `clinical_trials_agent`;
only its identity matters to the orchestration claims. -/
structure Trial where
  nct_id : String
  title : String
  url : String
deriving DecidableEq, Repr

/-- The shared `OncoAgentState`.  Every key is present because
`app/routes.py` initialises all of them on each request; `claims` holds
heap indices (see above). -/
structure OncoState where
  messages : List Msg
  original_query : String
  query_type : String
  cancer_type : Option String
  images : List ImageEntry
  evidence : List Evidence
  clinical_trials : List Trial
  claims : List Nat
  current_agent : String
  agents_completed : List String
  needs_cross_validation : Bool
  response : Option String
  confidence_overall : Option String
deriving DecidableEq, Repr

/-- A router decision (spec section 4.3): terminal, a single next step, or
a fan-out list of `(step, branch-local state)` pairs — the code's
`Literal[...] | list[Send]` return type of `route_after_supervisor`,
with `terminal` the executor-level end marker. -/
inductive RouteDecision where
  | terminal
  | single (step : String)
  | fanOut (sends : List (String × OncoState))
deriving DecidableEq, Repr

/-! ## Router and supervisor (`agents/supervisor.py`) -/

/-- Intent classification for the no-history branch of
`_classify_intent_with_llm` (supervisor.py lines 27-33). -/
def classifyNoHistoryQuery (query : String) : String :=
  let q := pyStrip (pyLower query)
  let greetings := ["hola", "hello", "hi", "buenos dias", "buenas tardes", "como estas", "hey"]
  if (greetings.any (fun g => hasSub q g)) && (pyWords q).length < 5 then "greeting"
  else "research_required"

/-- The valid intents accepted back from the classifier LLM
(supervisor.py line 88). -/
def validIntents : List String :=
  ["greeting", "followup_with_context", "repeated_question", "option_selection",
   "research_required"]

/-- Strip, lowercase and remove quote characters from the raw LLM reply
(supervisor.py line 86).  The double quote and the apostrophe are
matched by code point to keep the embedding explicit. -/
def normalizeIntent (raw : String) : String :=
  String.mk ((pyLower (pyStrip raw)).toList.filter
    (fun c => c ≠ Char.ofNat 34 && c ≠ Char.ofNat 39))

/-- `_classify_intent_with_llm`: with no history the deterministic greeting
check runs; otherwise the LLM reply (an oracle here, `Except` for the
`except Exception` fallback) is normalised and validated. -/
def classifyIntentWithLLM (oracle : Except Unit String) (query : String)
    (messages : List Msg) : String :=
  if messages = [] ∨ messages.length ≤ 1 then classifyNoHistoryQuery query
  else
    match oracle with
    | .error _ => "research_required"
    | .ok raw =>
      let intent := normalizeIntent raw
      if intent ∈ validIntents then intent else "research_required"

/-- `_classify_intent_simple`: the fallback classification without an LLM
(supervisor.py lines 96-104). -/
def classifyIntentSimple (query : String) : String :=
  let q := pyStrip (pyLower query)
  let greetings := ["hola", "hello", "hi", "buenos dias", "buenas tardes", "como estas"]
  if (greetings.any (fun g => hasSub q g)) && (pyWords q).length < 5 then "greeting"
  else "research_required"

/-! ## Partial state updates and reducers -/

/-- A partial State returned by one step.  List-valued fields use the
append/union reducers; `Option` fields are overwrite reducers that fire
only when the step supplies the key.  Modelled from the spec: the
reducer registry lives in the missing `state.py` (spec section 4.1 and
section 3 fix messages/evidence/clinical_trials as append,
completed steps as union, the rest as overwrite). -/
structure PartialU where
  messages : List Msg := []
  query_type : Option String := none
  evidence : List Evidence := []
  clinical_trials : List Trial := []
  images : Option (List ImageEntry) := none
  claims : Option (List Nat) := none
  agents_completed : List String := []
  response : Option String := none
  confidence_overall : Option String := none
  needs_cross_validation : Option Bool := none
deriving DecidableEq, Repr

/-- The empty partial update (the `invoke({}, sid)` argument). -/
def emptyU : PartialU := {}

/-- Set union on step-name lists, keeping first occurrences. -/
def unionStr (a b : List String) : List String :=
  a ++ b.filter (fun x => ¬ x ∈ a)

/-- Apply one partial update to a base State with the per-field reducers.
Modelled from the spec (section 4.1, `state.py` missing): append for
`messages` / `evidence` / `clinical_trials`, union for completed steps,
overwrite for the remaining fields. -/
def applyUpdate (s : OncoState) (u : PartialU) : OncoState :=
  { s with
    messages := s.messages ++ u.messages
    query_type := match u.query_type with | some v => v | none => s.query_type
    evidence := s.evidence ++ u.evidence
    clinical_trials := s.clinical_trials ++ u.clinical_trials
    images := match u.images with | some v => v | none => s.images
    claims := match u.claims with | some v => v | none => s.claims
    agents_completed := unionStr s.agents_completed u.agents_completed
    response := match u.response with | some v => some v | none => s.response
    confidence_overall :=
      match u.confidence_overall with | some v => some v | none => s.confidence_overall
    needs_cross_validation :=
      match u.needs_cross_validation with | some v => v | none => s.needs_cross_validation }

theorem applyUpdate_emptyU (s : OncoState) : applyUpdate s emptyU = s := by
  cases s
  simp [applyUpdate, emptyU, unionStr]

/-- `route_after_supervisor` (supervisor.py lines 121-144): greeting goes
to direct chat, follow-ups go to the context responder, everything else
fans out to research, plus clinical trials for `treatment` / `trial`
intents, plus vision when images are present.  `state.get("query_type",
"research_required")` reads the always-initialised key. -/
def route_after_supervisor (s : OncoState) : RouteDecision :=
  let intent := s.query_type
  if intent = "greeting" then .single "direct_chat"
  else if intent = "followup_with_context" ∨ intent = "repeated_question" then
    .single "context_responder"
  else
    let sends := [("research", s)]
    let sends := if intent = "treatment" ∨ intent = "trial"
      then sends ++ [("clinical_trials", s)] else sends
    let sends := if s.images ≠ [] then sends ++ [("vision", s)] else sends
    .fanOut sends

/-- The step names a decision dispatches to. -/
def sendTargets : RouteDecision → List String
  | .terminal => []
  | .single n => [n]
  | .fanOut sends => sends.map Prod.fst

/-! ## Spec-modelled merge (section 4.1)

`merge(base, updates)` applies the partial updates of one superstep to
the base State, processing branches in the fixed router-declared
priority order rather than in supply (wall-clock completion) order. -/

/-- Find the update supplied by branch `b`. -/
def findBranch (b : String) : List (String × PartialU) → Option PartialU
  | [] => none
  | (n, u) :: t => if n = b then some u else findBranch b t

/-- Modelled from the spec: `merge` of section 4.1 (`state.py` and the
LangGraph merge engine are not in the source tree).  Branches are
consumed in the router-declared `priority` order. -/
def merge (base : OncoState) (priority : List String)
    (ups : List (String × PartialU)) : OncoState :=
  match priority with
  | [] => base
  | b :: rest =>
    match findBranch b ups with
    | some u => merge (applyUpdate base u) rest ups
    | none => merge base rest ups

/-- The updates of one superstep arranged in router-declared order. -/
def orderedUpdates (priority : List String) (ups : List (String × PartialU)) :
    List PartialU :=
  priority.filterMap (fun b => findBranch b ups)

/-! ## Spec-modelled executor (sections 4.4 and 4.5)

`graph.py` (the LangGraph wiring and checkpointer) is not in the source
tree, so the superstep loop, barrier semantics, checkpointing and the
crash/resume flow are modelled from the spec.  Step bodies perform
network I/O, so the step registry is a parameter
`stepf : String → OncoState → Except StepFailure PartialU`
("given identical step outputs"). -/

/-- A failed step record (spec section 7). -/
structure StepFailure where
  step : String
  cause : String
deriving DecidableEq, Repr

/-- Outcome of driving the executor: terminal with the final State,
failed with the collected step failures, or crashed mid-run (fuel
exhausted) with the pending active set and the last merged State. -/
inductive Outcome where
  | terminal (final : OncoState)
  | failed (errs : List StepFailure)
  | crashed (pending : List (String × OncoState)) (s : OncoState)
deriving DecidableEq, Repr

/-- A run log: the outcome, the checkpoints written after each completed
superstep (index, merged State, next active set — the spec requires the
checkpoint to round-trip at minimum `{session, State, superstep}`), and
the trace of executed supersteps (their active step names). -/
structure RunLog where
  outcome : Outcome
  checkpoints : List (Nat × OncoState × List (String × OncoState))
  trace : List (List String)
deriving DecidableEq, Repr

/-- Dispatch every active step concurrently on its branch-local State
(spec section 4.4, step 2). -/
def dispatch (stepf : String → OncoState → Except StepFailure PartialU)
    (active : List (String × OncoState)) :
    List (String × Except StepFailure PartialU) :=
  active.map (fun p => (p.1, stepf p.1 p.2))

/-- All failures collected at the barrier. -/
def collectFailures (rs : List (String × Except StepFailure PartialU)) :
    List StepFailure :=
  rs.filterMap (fun p => match p.2 with | .error e => some e | .ok _ => none)

/-- The successful partial updates, tagged by branch. -/
def collectUpdates (rs : List (String × Except StepFailure PartialU)) :
    List (String × PartialU) :=
  rs.filterMap (fun p => match p.2 with | .ok u => some (p.1, u) | .error _ => none)

/-- One superstep at the barrier (spec section 4.4, steps 2-4): dispatch,
await all, and either fail with every collected failure (no partial
update merged) or merge in router-declared order and record the active
steps as completed. -/
def superstep (stepf : String → OncoState → Except StepFailure PartialU)
    (s : OncoState) (active : List (String × OncoState)) :
    Except (List StepFailure) OncoState :=
  let rs := dispatch stepf active
  let fs := collectFailures rs
  if fs ≠ [] then .error fs
  else
    let merged := merge s (active.map Prod.fst) (collectUpdates rs)
    .ok { merged with
      agents_completed := unionStr merged.agents_completed (active.map Prod.fst) }

/-- Decode a router decision into the next active set; an empty fan-out
list decodes exactly like `terminal`. -/
def nextActiveOf (d : RouteDecision) (s : OncoState) :
    List (String × OncoState) :=
  match d with
  | .terminal => []
  | .single n => [(n, s)]
  | .fanOut sends => sends

/-- Modelled from the spec: the executor loop of section 4.4.  `fuel`
bounds the number of supersteps (exhaustion models a crash between two
requests); `k` is the superstep index of the next checkpoint; `next`
is the graph's successor/router function on the previous active names. -/
def execFrom (stepf : String → OncoState → Except StepFailure PartialU)
    (next : List String → OncoState → RouteDecision) :
    Nat → Nat → List (String × OncoState) → OncoState → RunLog
  | 0, _, active, s =>
    if active = [] then ⟨.terminal s, [], []⟩ else ⟨.crashed active s, [], []⟩
  | fuel' + 1, k, active, s =>
    if active = [] then ⟨.terminal s, [], []⟩
    else
      match superstep stepf s active with
      | .error errs => ⟨.failed errs, [], []⟩
      | .ok s2 =>
        let names := active.map Prod.fst
        let acts := nextActiveOf (next names s2) s2
        let rest := execFrom stepf next fuel' (k + 1) acts s2
        ⟨rest.outcome, (k + 1, s2, acts) :: rest.checkpoints, names :: rest.trace⟩

/-- A fresh `invoke(init, sid)`: no prior checkpoint, the run starts at
the graph entry step with the caller-supplied initial State. -/
def invokeFresh (stepf : String → OncoState → Except StepFailure PartialU)
    (next : List String → OncoState → RouteDecision)
    (entry : String) (init : OncoState) (fuel : Nat) : RunLog :=
  execFrom stepf next fuel 0 [(entry, init)] init

/-- A resuming `invoke(initU, sid)`: the loaded checkpoint State is
merged under the initial partial State and execution continues from the
checkpointed superstep index and pending active set. -/
def invokeResume (stepf : String → OncoState → Except StepFailure PartialU)
    (next : List String → OncoState → RouteDecision)
    (cp : Nat × OncoState × List (String × OncoState))
    (initU : PartialU) (fuel : Nat) : RunLog :=
  execFrom stepf next fuel cp.1 cp.2.2 (applyUpdate cp.2.1 initU)

/-- Final State of a terminal outcome, if any. -/
def finalStateOf : Outcome → Option OncoState
  | .terminal s => some s
  | _ => none

/-! ## HTTP layer (`app/routes.py`) -/

/-- `_infer_query_type` (routes.py lines 37-47). -/
def infer_query_type (query : String) : String :=
  let q := pyLower query
  if hasSub q "trial" || hasSub q "clinical trial" then "trial"
  else if hasSub q "guideline" then "guideline"
  else if hasSub q "drug" || hasSub q "dose" || hasSub q "dosing" then "drug"
  else if hasSub q "treatment" || hasSub q "therapy" then "treatment"
  else "general"

/-- The initial State literal built by `query_oncoagent`
(routes.py lines 91-105). -/
def initial_state (query : String) (cancerType : Option String)
    (images : List ImageEntry) : OncoState :=
  { messages := [.human query]
    original_query := query
    query_type := infer_query_type query
    cancer_type := cancerType
    images := images
    evidence := []
    clinical_trials := []
    claims := []
    current_agent := ""
    agents_completed := []
    needs_cross_validation := true
    response := none
    confidence_overall := none }

/-- The request body of `POST /query`. -/
structure QueryRequest where
  query : String
  thread_id : Option String
  cancer_type : Option String
  images : Option (List String)
deriving DecidableEq, Repr

/-- The response body of `POST /query`. -/
structure QueryResponse where
  response : String
  confidence : String
  thread_id : String
  citations : List Citation
  clinical_trials : List Trial
deriving DecidableEq, Repr

/-- Python `a or b` on an optional string: the left value unless it is
absent or falsy (the empty string). -/
def pyOrStr (v : Option String) (dflt : String) : String :=
  match v with
  | some s => if s = "" then dflt else s
  | none => dflt

/-- `_extract_citations` (routes.py lines 69-75): flatten the citations of
every claim reachable from the final State. -/
def extract_citations (heap : List ClaimRec) (claims : List Nat) :
    List Citation :=
  (claims.map (fun i => match heap[i]? with
    | some c => c.citations
    | none => [])).flatten

/-- `query_oncoagent` (routes.py lines 83-115).  External pieces are
parameters: `graphInvoke` is the compiled graph's `ainvoke` returning
the final State together with the claim heap it references, `decodeImg`
is `_decode_image` (base64), and `freshUuid` the value of
`str(uuid.uuid4())`.  `response` and `confidence_overall` are read with
a default where the Python indexes directly (the graph always sets
them before a terminal edge). -/
def query_oncoagent
    (graphInvoke : OncoState → String → List ClaimRec × OncoState)
    (decodeImg : String → Nat → ImageEntry)
    (freshUuid : String) (req : QueryRequest) : QueryResponse :=
  let thread_id := pyOrStr req.thread_id freshUuid
  let images :=
    match req.images with
    | some l => if l = [] then [] else l.enum.map (fun p => decodeImg p.2 p.1)
    | none => []
  let init := initial_state req.query req.cancer_type images
  let result := graphInvoke init thread_id
  { response := result.2.response.getD ""
    confidence := result.2.confidence_overall.getD ""
    thread_id := thread_id
    citations := extract_citations result.1 result.2.claims
    clinical_trials := result.2.clinical_trials }

/-! ## Research agent deduplication (`agents/research.py` lines 170-194) -/

/-- One structured Exa search result (`tools/exa_tools.py` lines 42-53). -/
structure SearchResult where
  url : String
  title : String
  highlights : Option (List String)
deriving DecidableEq, Repr

/-- `_classify_source` (research.py lines 42-59). -/
def classify_source (url : String) : String :=
  if hasSub url "pubmed.ncbi.nlm.nih.gov" || hasSub url "pmc.ncbi.nlm.nih.gov" then "pubmed"
  else if hasSub url "asco.org" || hasSub url "ascopubs.org" then "asco"
  else if hasSub url "fda.gov" then "fda"
  else if hasSub url "esmo.org" then "esmo"
  else if hasSub url "nccn.org" || hasSub url "jnccn.org" then "nccn"
  else if hasSub url "nejm.org" then "nejm"
  else if hasSub url "thelancet.com" then "lancet"
  else if hasSub url "cochranelibrary.com" then "cochrane"
  else "other"

/-- The inner loop of the dedup pass over one query's results: skip URLs
already seen, otherwise record the URL and emit an evidence entry
(`result.get("highlights") or []` collapses an absent value to `[]`). -/
def innerDedup (retrieved : String) :
    List SearchResult → List String → List String × List Evidence
  | [], seen => (seen, [])
  | r :: rs, seen =>
    if r.url ∈ seen then innerDedup retrieved rs seen
    else
      let e : Evidence :=
        { source := r.url
          title := r.title
          snippet := r.highlights.getD []
          source_type := classify_source r.url
          retrieved_date := retrieved }
      let rest := innerDedup retrieved rs (seen ++ [r.url])
      (rest.1, e :: rest.2)

/-- The outer loop over `asyncio.gather(..., return_exceptions=True)`:
a query whose search raised is skipped, others feed the shared
`seen_urls` set in query order. -/
def dedupLoop (retrieved : String) :
    List (Except Unit (List SearchResult)) → List String → List Evidence
  | [], _ => []
  | .error _ :: rest, seen => dedupLoop retrieved rest seen
  | .ok results :: rest, seen =>
    let step := innerDedup retrieved results seen
    step.2 ++ dedupLoop retrieved rest step.1

/-- The full dedup pass of `research_agent` (research.py lines 174-192),
starting from an empty `seen_urls` set. -/
def dedupEvidence (retrieved : String)
    (all_results : List (Except Unit (List SearchResult))) : List Evidence :=
  dedupLoop retrieved all_results []

/-- `research_agent` with the search layer as a parameter: the returned
partial update carries the deduplicated evidence. -/
def research_agent (retrieved : String)
    (all_results : List (Except Unit (List SearchResult))) : PartialU :=
  { emptyU with
    evidence := dedupEvidence retrieved all_results
    agents_completed := ["research"] }

/-- URLs of all successful searches, in query order. -/
def urlsOf (rs : List (Except Unit (List SearchResult))) : List String :=
  (rs.map (fun r => match r with
    | .ok l => l.map (fun x => x.url)
    | .error _ => [])).flatten

/-- Keep the first occurrence of each element not already in `seen`. -/
def firstOcc : List String → List String → List String
  | [], _ => []
  | u :: t, seen =>
    if u ∈ seen then firstOcc t seen else u :: firstOcc t (seen ++ [u])

/-! ## Cross validator (`agents/cross_validator.py`)

The Python loop mutates each `Claim` object of the input snapshot in
place (`claim.cross_validated = True`, `claim.validation_notes = ...`,
conditionally `claim.confidence = "UNCERTAIN"`) and appends the very
same object to `validated_claims`.  The heap embedding makes this
explicit: the function returns an updated heap together with its
partial update, and the update's `claims` list holds the same indices
that the input snapshot held. -/

/-- `cross_validator` with the secondary LLM as an oracle from the claim
record to the validation text. -/
def cross_validator (openaiKey : Option String) (oracle : ClaimRec → String)
    (heap : List ClaimRec) (s : OncoState) :
    Except String (List ClaimRec × PartialU) :=
  match openaiKey with
  | none => .error "OPENAI_API_KEY is not configured."
  | some _ =>
    let out := s.claims.foldl
      (fun (acc : List ClaimRec × List Nat) i =>
        match acc.1[i]? with
        | none => acc
        | some c =>
          let notes := oracle c
          let c := { c with cross_validated := true, validation_notes := notes }
          let c := if hasSub (pyUpper notes) "UNCERTAIN"
            then { c with confidence := "UNCERTAIN" } else c
          (acc.1.set i c, acc.2 ++ [i]))
      (heap, [])
    .ok (out.1, { emptyU with
      claims := some out.2
      needs_cross_validation := some false })

/-! ## Purity instrumentation for the router

`route_after_supervisor` contains only reads of the State and list
construction — no awaits, no attribute assignment, no I/O call.  The
instrumented version threads the ambient mutable context (the claim
heap and an I/O trace) through the same statements, so that leaving it
unchanged is a provable statement rather than a convention. -/

/-- `route_after_supervisor` threaded through the ambient world
(claim heap, I/O trace); the body mirrors supervisor.py lines 121-144
statement by statement. -/
def route_after_supervisorEff (heap : List ClaimRec) (io : List String)
    (s : OncoState) : List ClaimRec × List String × RouteDecision :=
  let intent := s.query_type
  if intent = "greeting" then (heap, io, .single "direct_chat")
  else if intent = "followup_with_context" ∨ intent = "repeated_question" then
    (heap, io, .single "context_responder")
  else
    let sends := [("research", s)]
    let sends := if intent = "treatment" ∨ intent = "trial"
      then sends ++ [("clinical_trials", s)] else sends
    let sends := if s.images ≠ [] then sends ++ [("vision", s)] else sends
    (heap, io, .fanOut sends)

/-! ## Modelled graph wiring

Modelled from the spec: `graph.py` is not in the source tree.  The
entry step is the supervisor; after it the conditional router
`route_after_supervisor` decides; research-style branches join at the
finalize step (spec section 8: "next router decision is
`Single(finalize)`"); finalize and the two direct responders end the
run. -/

/-- The successor function of the modelled OncoAgent graph. -/
def oncoNext (prev : List String) (s : OncoState) : RouteDecision :=
  if prev = ["supervisor"] then route_after_supervisor s
  else if prev = ["direct_chat"] ∨ prev = ["context_responder"] ∨ prev = ["finalize"] then
    .terminal
  else .single "finalize"

/-- `supervisor` (supervisor.py lines 107-118): classify the intent with
the LLM when an Anthropic key is configured, with the simple fallback
otherwise, and return it as the `query_type` partial update. -/
def supervisor (anthropicKey : Option String) (oracle : Except Unit String)
    (s : OncoState) : PartialU :=
  let query := s.original_query
  let messages := s.messages
  let intent :=
    match anthropicKey with
    | some _ => classifyIntentWithLLM oracle query messages
    | none => classifyIntentSimple query
  { emptyU with query_type := some intent }

/-- C1: at the decision node the router's decision is a single next step
or a fan-out list (the two forms `route_after_supervisor` can return,
both inside the spec's three-variant `RouteDecision`), and the executor
treats an empty fan-out list exactly as `Terminal`: the run ends with
the current State, writing no checkpoint and executing no further
superstep, identically to an explicit `terminal` decision. -/
theorem router_decision_forms_and_empty_fanout_is_terminal :
    (∀ s : OncoState,
      (∃ n, route_after_supervisor s = .single n) ∨
      (∃ sends, route_after_supervisor s = .fanOut sends)) ∧
    (∀ (stepf : String → OncoState → Except StepFailure PartialU)
      (next : List String → OncoState → RouteDecision)
      (fuel k : Nat) (s s2 : OncoState),
      execFrom stepf next fuel k (nextActiveOf (.fanOut []) s2) s =
        ⟨.terminal s, [], []⟩ ∧
      nextActiveOf (RouteDecision.fanOut []) s2 = nextActiveOf .terminal s2) := by
  constructor
  · intro s
    by_cases h1 : s.query_type = "greeting"
    · exact Or.inl ⟨"direct_chat", by simp [route_after_supervisor, h1]⟩
    · by_cases h2 : s.query_type = "followup_with_context" ∨
          s.query_type = "repeated_question"
      · exact Or.inl ⟨"context_responder", by simp [route_after_supervisor, h1, h2]⟩
      · right
        simp only [route_after_supervisor]
        rw [if_neg h1, if_neg h2]
        exact ⟨_, rfl⟩
  · intro stepf next fuel k s s2
    refine ⟨?_, rfl⟩
    cases fuel <;> rfl

/-- C4: the router is pure and deterministic: the instrumented version
threads the ambient world (claim heap, I/O trace) through unchanged and
its decision agrees with the pure function of the State, and equal
States yield equal decisions. -/
theorem router_pure_and_deterministic :
    (∀ (heap₁ heap₂ : List ClaimRec) (io₁ io₂ : List String) (s : OncoState),
      route_after_supervisorEff heap₁ io₁ s = (heap₁, io₁, route_after_supervisor s) ∧
      (route_after_supervisorEff heap₁ io₁ s).2.2 =
        (route_after_supervisorEff heap₂ io₂ s).2.2) ∧
    (∀ s t : OncoState, s = t →
      route_after_supervisor s = route_after_supervisor t) := by
  have key : ∀ (heap : List ClaimRec) (io : List String) (s : OncoState),
      route_after_supervisorEff heap io s = (heap, io, route_after_supervisor s) := by
    intro heap io s
    unfold route_after_supervisorEff route_after_supervisor
    by_cases h1 : s.query_type = "greeting"
    · simp [h1]
    · by_cases h2 : s.query_type = "followup_with_context" ∨
          s.query_type = "repeated_question"
      · simp [h1, h2]
      · by_cases h3 : s.images ≠ [] <;> simp [h1, h2, h3]
  refine ⟨fun h₁ h₂ i₁ i₂ s => ⟨key h₁ i₁ s, ?_⟩, fun s t h => by rw [h]⟩
  rw [key h₁ i₁ s, key h₂ i₂ s]

/-- Witness for C4 at a concrete State. -/
theorem router_pure_and_deterministic_witness :
    initial_state "hola" none [] = initial_state "hola" none [] ∧
    route_after_supervisor (initial_state "hola" none []) =
      route_after_supervisor (initial_state "hola" none []) :=
  ⟨rfl, router_pure_and_deterministic.2 _ _ rfl⟩

/-- C5 (amended): `route_after_supervisor` never returns `Terminal` and
never returns an empty fan-out for any State, including the final State
of a terminated run: the run reaches `Terminal` through the graph's
fixed terminal edges, not through a terminal router decision, so
re-invoking the router on the final State does not return `Terminal`. -/
theorem route_never_returns_terminal (s : OncoState) :
    route_after_supervisor s ≠ RouteDecision.terminal ∧
    route_after_supervisor s ≠ RouteDecision.fanOut [] := by
  by_cases h1 : s.query_type = "greeting"
  · simp [route_after_supervisor, h1]
  · by_cases h2 : s.query_type = "followup_with_context" ∨
        s.query_type = "repeated_question"
    · simp [route_after_supervisor, h1, h2]
    · constructor
      · simp only [route_after_supervisor]
        rw [if_neg h1, if_neg h2]
        intro h
        exact RouteDecision.noConfusion h
      · simp only [route_after_supervisor]
        rw [if_neg h1, if_neg h2]
        intro h
        have h3 := RouteDecision.fanOut.inj h
        by_cases h4 : s.query_type = "treatment" ∨ s.query_type = "trial" <;>
          by_cases h5 : s.images ≠ [] <;> simp [h4, h5] at h3

/-- Step registry for the greeting counterexample run: the supervisor is
the embedded code, the direct chat step returns a fixed modelled reply
(its body is an external LLM call). -/
def c5stepf : String → OncoState → Except StepFailure PartialU := fun n s =>
  if n = "supervisor" then .ok (supervisor none (.error ()) s)
  else if n = "direct_chat" then
    .ok { emptyU with
      messages := [.ai "hello there"]
      response := some "hello there"
      confidence_overall := some "UNCERTAIN" }
  else .error ⟨n, "unexpected step"⟩

/-- Initial State of the greeting counterexample run. -/
def c5init : OncoState := initial_state "hola" none []

/-- Counterexample for C5: this run reaches `Terminal`, and re-invoking
`route_after_supervisor` on its final State returns
`Single(direct_chat)`, not `Terminal`. -/
theorem terminal_rerouting_cex :
    ((finalStateOf (execFrom c5stepf oncoNext 3 0 [("supervisor", c5init)]
        c5init).outcome).isSome = true) ∧
    ((finalStateOf (execFrom c5stepf oncoNext 3 0 [("supervisor", c5init)]
        c5init).outcome).map route_after_supervisor ≠ some RouteDecision.terminal) ∧
    ((finalStateOf (execFrom c5stepf oncoNext 3 0 [("supervisor", c5init)]
        c5init).outcome).map route_after_supervisor =
      some (RouteDecision.single "direct_chat")) := by
  decide

/-- Initial State built by the HTTP layer for the request
`{query: "drug X dosing"}` (routes.py lines 91-105). -/
def c2init : OncoState := initial_state "drug X dosing" none []

/-- The State at the decision node after the supervisor superstep: the
supervisor (with an Anthropic key and a one-message history, so the
deterministic no-history branch of the classifier runs) classifies the
query and overwrites `query_type`. -/
def c2afterSupervisor : OncoState :=
  applyUpdate c2init (supervisor (some "api-key") (.error ()) c2init)

/-- Counterexample for C2: the query `drug X dosing` is classified as
`research_required`, and at that State the router dispatches only the
`research` step — `clinical_trials` is not in the fan-out, because
`route_after_supervisor` adds it only for the intents `treatment` and
`trial`, which the supervisor classifier never produces. -/
theorem drug_dosing_fanout_cex :
    c2afterSupervisor.query_type = "research_required" ∧
    sendTargets (route_after_supervisor c2afterSupervisor) = ["research"] ∧
    ¬ "clinical_trials" ∈ sendTargets (route_after_supervisor c2afterSupervisor) := by
  decide

/-- Step registry for the amended C2 run: the supervisor is the embedded
code; the research and finalize bodies are external network/LLM calls,
so their outputs are parameters (the scenario's "both return evidence
lists" / "finalize step sets `response`"). -/
def c2stepf (ev : List Evidence) (resp conf : String) :
    String → OncoState → Except StepFailure PartialU := fun n s =>
  if n = "supervisor" then .ok (supervisor (some "api-key") (.error ()) s)
  else if n = "research" then
    .ok { emptyU with evidence := ev, agents_completed := ["research"] }
  else if n = "finalize" then
    .ok { emptyU with response := some resp, confidence_overall := some conf }
  else .error ⟨n, "unexpected step"⟩

/-- The modelled run for the amended C2 scenario. -/
def c2log (ev : List Evidence) (resp conf : String) : RunLog :=
  execFrom (c2stepf ev resp conf) oncoNext 4 0 [("supervisor", c2init)] c2init

set_option maxHeartbeats 4000000 in
/-- C2 (amended): for the run with initial State
`{original_query: "drug X dosing"}`, classified `research_required`, the
router fans out to the `research` step only; the merge step carries the
returned evidence into `evidence`; the next decision is
`Single(finalize)`; finalize sets `response`, and the run reaches
`Terminal` with completed steps `{supervisor, research, finalize}` —
`clinical_trials` is never dispatched. -/
theorem drug_dosing_run_amended (ev : List Evidence) (resp conf : String) :
    (c2log ev resp conf).trace = [["supervisor"], ["research"], ["finalize"]] ∧
    (finalStateOf (c2log ev resp conf).outcome).map
      (fun f => f.agents_completed) = some ["supervisor", "research", "finalize"] ∧
    (finalStateOf (c2log ev resp conf).outcome).map
      (fun f => f.evidence) = some ev ∧
    (finalStateOf (c2log ev resp conf).outcome).map
      (fun f => f.response) = some (some resp) := by
  refine ⟨rfl, rfl, ?_, rfl⟩
  show some (ev ++ []) = some ev
  simp

/-- Heap for the C3 failing input: one claim record, not yet
cross-validated. -/
def c3heap : List ClaimRec :=
  [{ statement := "claim-a"
     citations := [{ source_type := "pubmed", url := "https://x" }]
     confidence := "HIGH"
     cross_validated := false
     validation_notes := "" }]

/-- Input snapshot for the C3 failing input: its `claims` field holds a
reference to the single heap record. -/
def c3state : OncoState :=
  { initial_state "q" none [] with claims := [0] }

/-- C3: `cross_validator` mutates the `Claim` records reachable from its
input snapshot.  At this input the call succeeds, but the heap record
the snapshot references comes back with `cross_validated` flipped to
`true` and `validation_notes` filled in — the snapshot's reachable
objects are not left unchanged, and the update's `claims` list aliases
the very same records. -/
theorem cross_validator_mutates_input_claims :
    cross_validator (some "sk-key") (fun _ => "SUPPORTED by the evidence")
        c3heap c3state =
      .ok ([{ statement := "claim-a"
              citations := [{ source_type := "pubmed", url := "https://x" }]
              confidence := "HIGH"
              cross_validated := true
              validation_notes := "SUPPORTED by the evidence" }],
        { emptyU with claims := some [0], needs_cross_validation := some false }) ∧
    ¬ [({ statement := "claim-a"
          citations := [{ source_type := "pubmed", url := "https://x" }]
          confidence := "HIGH"
          cross_validated := true
          validation_notes := "SUPPORTED by the evidence" } : ClaimRec)] = c3heap := by
  exact ⟨rfl, by decide⟩

/-- A graph stub for the C10 counterexample: returns the initial State
unchanged with an empty claim heap. -/
def idGraph : OncoState → String → List ClaimRec × OncoState :=
  fun s _ => ([], s)

/-- An image decoder stub for the C10 counterexample (never consulted:
the request carries no images). -/
def noImg : String → Nat → ImageEntry :=
  fun _ _ => { path := none, itype := none, data := none, mime_type := none, analysis := none }

/-- C10 (amended): `query_oncoagent` always returns a response carrying a
thread id — the caller-supplied `thread_id` verbatim when the request
provides a non-empty one, and the freshly generated UUID when
`thread_id` is omitted, null, or the empty string (Python `or`
falsiness) — so such a request silently starts a new session rather
than failing or resuming a prior session. -/
theorem thread_id_behavior
    (g : OncoState → String → List ClaimRec × OncoState)
    (d : String → Nat → ImageEntry) (fresh : String) (req : QueryRequest) :
    (query_oncoagent g d fresh req).thread_id =
      (match req.thread_id with
       | some t => if t = "" then fresh else t
       | none => fresh) := by
  cases h : req.thread_id <;> simp [query_oncoagent, pyOrStr, h]

/-- Counterexample for C10: a request that provides `thread_id` as the
empty string does not get it back verbatim — the response carries the
freshly generated UUID instead. -/
theorem empty_thread_id_cex :
    (query_oncoagent idGraph noImg "generated-uuid"
      { query := "q", thread_id := some "", cancer_type := none,
        images := none }).thread_id = "generated-uuid" ∧
    ¬ ("generated-uuid" = "") := by
  decide

/-- Branch lookup is invariant under permutation of the supplied updates
when branch tags are unique. -/
theorem findBranch_perm : ∀ {u₁ u₂ : List (String × PartialU)}, u₁.Perm u₂ →
    (u₁.map Prod.fst).Nodup → ∀ b, findBranch b u₁ = findBranch b u₂ := by
  intro u₁ u₂ h
  induction h with
  | nil => intro _ _; rfl
  | cons x h ih =>
    intro hnd b
    obtain ⟨n, v⟩ := x
    simp only [List.map_cons, List.nodup_cons] at hnd
    by_cases hb : n = b
    · simp [findBranch, hb]
    · simp only [findBranch, hb, if_false]
      exact ih hnd.2 b
  | swap x y l =>
    intro hnd b
    obtain ⟨n₁, v₁⟩ := x
    obtain ⟨n₂, v₂⟩ := y
    have hne : n₂ ≠ n₁ := by
      simp only [List.map_cons, List.nodup_cons, List.mem_cons] at hnd
      exact fun hh => hnd.1 (Or.inl hh)
    by_cases h1 : n₂ = b
    · have h2 : ¬ n₁ = b := fun hh => hne (h1.trans hh.symm)
      simp [findBranch, h1, h2]
    · by_cases h2 : n₁ = b <;> simp [findBranch, h1, h2]
  | trans h₁ h₂ ih₁ ih₂ =>
    intro hnd b
    have hnd₂ := (h₁.map Prod.fst).nodup hnd
    rw [ih₁ hnd b, ih₂ hnd₂ b]

/-- Two update lists with identical branch lookup merge identically. -/
theorem merge_eq_of_findBranch_eq (u₁ u₂ : List (String × PartialU))
    (h : ∀ b, findBranch b u₁ = findBranch b u₂) :
    ∀ (priority : List String) (base : OncoState),
      merge base priority u₁ = merge base priority u₂ := by
  intro priority
  induction priority with
  | nil => intro base; rfl
  | cons b rest ih =>
    intro base
    simp only [merge]
    rw [h b]
    cases findBranch b u₂ <;> simp [ih]

/-- `merge` applies exactly the updates arranged in router-declared
priority order. -/
theorem merge_eq_foldl_orderedUpdates (ups : List (String × PartialU)) :
    ∀ (priority : List String) (base : OncoState),
      merge base priority ups = (orderedUpdates priority ups).foldl applyUpdate base := by
  intro priority
  induction priority with
  | nil => intro base; rfl
  | cons b rest ih =>
    intro base
    simp only [merge, orderedUpdates, List.filterMap_cons]
    cases findBranch b ups <;> simp [orderedUpdates] at ih ⊢ <;> rw [ih]

/-- C6: within one superstep, `merge` is deterministic and invariant
under any permutation of the supplied updates (branch tags unique), and
the order-sensitive append reducers follow the fixed router-declared
branch order: the result is the fold of the updates arranged in
priority order, never in supply order. -/
theorem merge_superstep_order_independent (base : OncoState)
    (priority : List String) (u₁ u₂ : List (String × PartialU))
    (hperm : u₁.Perm u₂) (hnd : (u₁.map Prod.fst).Nodup) :
    merge base priority u₁ = merge base priority u₂ ∧
    merge base priority u₁ = (orderedUpdates priority u₁).foldl applyUpdate base :=
  ⟨merge_eq_of_findBranch_eq u₁ u₂ (findBranch_perm hperm hnd) priority base,
   merge_eq_foldl_orderedUpdates u₁ priority base⟩

/-- Concrete research update for the C6 witness. -/
def wUpA : PartialU :=
  { emptyU with
    evidence := [{ source := "https://a", title := "A", snippet := [],
                   source_type := "other", retrieved_date := "d" }]
    agents_completed := ["research"] }

/-- Concrete clinical-trials update for the C6 witness. -/
def wUpB : PartialU :=
  { emptyU with
    clinical_trials := [{ nct_id := "NCT1", title := "T", url := "u" }]
    agents_completed := ["clinical_trials"] }

/-- Witness for C6: the two updates supplied in completion order and in
router order merge to the same State. -/
theorem merge_superstep_order_independent_witness :
    ([("clinical_trials", wUpB), ("research", wUpA)].map
      (Prod.fst (α := String) (β := PartialU))).Nodup ∧
    (merge (initial_state "q" none []) ["research", "clinical_trials"]
        [("clinical_trials", wUpB), ("research", wUpA)] =
      merge (initial_state "q" none []) ["research", "clinical_trials"]
        [("research", wUpA), ("clinical_trials", wUpB)] ∧
     merge (initial_state "q" none []) ["research", "clinical_trials"]
        [("clinical_trials", wUpB), ("research", wUpA)] =
      (orderedUpdates ["research", "clinical_trials"]
          [("clinical_trials", wUpB), ("research", wUpA)]).foldl applyUpdate
        (initial_state "q" none [])) :=
  ⟨by decide,
   merge_superstep_order_independent (initial_state "q" none [])
     ["research", "clinical_trials"]
     [("clinical_trials", wUpB), ("research", wUpA)]
     [("research", wUpA), ("clinical_trials", wUpB)]
     (List.Perm.swap ("research", wUpA) ("clinical_trials", wUpB) [])
     (by decide)⟩

/-- A step's failure is collected at the barrier. -/
theorem mem_collectFailures_of_mem
    (stepf : String → OncoState → Except StepFailure PartialU)
    (active : List (String × OncoState)) (nB : String) (ovB : OncoState)
    (e : StepFailure) (hmem : (nB, ovB) ∈ active)
    (hfail : stepf nB ovB = .error e) :
    e ∈ collectFailures (dispatch stepf active) := by
  refine List.mem_filterMap.mpr ⟨(nB, Except.error e), ?_, rfl⟩
  refine List.mem_map.mpr ⟨(nB, ovB), hmem, ?_⟩
  simp [hfail]

/-- C7: superstep atomicity on failure.  If any step of the superstep
fails (here `(nB, ovB)` with failure `e`) while sibling steps may
succeed, the executor produces `Failed` carrying every collected
`StepFailure`, writes no checkpoint for the superstep (so no partial
update — including a successful sibling's — is merged or checkpointed,
and previously checkpointed State is retained unchanged), and executes
no further superstep. -/
theorem superstep_barrier_atomicity
    (stepf : String → OncoState → Except StepFailure PartialU)
    (next : List String → OncoState → RouteDecision)
    (fuel k : Nat) (active : List (String × OncoState)) (s : OncoState)
    (nB : String) (ovB : OncoState) (e : StepFailure)
    (hmem : (nB, ovB) ∈ active) (hfail : stepf nB ovB = .error e) :
    execFrom stepf next (fuel + 1) k active s =
      ⟨.failed (collectFailures (dispatch stepf active)), [], []⟩ ∧
    e ∈ collectFailures (dispatch stepf active) := by
  have hemem : e ∈ collectFailures (dispatch stepf active) :=
    mem_collectFailures_of_mem stepf active nB ovB e hmem hfail
  have hne : active ≠ [] := List.ne_nil_of_mem hmem
  refine ⟨?_, hemem⟩
  have hss : superstep stepf s active =
      .error (collectFailures (dispatch stepf active)) := by
    simp only [superstep]
    rw [if_pos (List.ne_nil_of_mem hemem)]
  simp only [execFrom]
  rw [if_neg hne, hss]

/-- Step registry for the C7 witness: step A succeeds, step B fails. -/
def c7stepf : String → OncoState → Except StepFailure PartialU := fun n _ =>
  if n = "A" then .ok { emptyU with agents_completed := ["A"] }
  else .error { step := n, cause := "boom" }

/-- Witness for C7 at a two-step superstep where A succeeds and B fails. -/
theorem superstep_barrier_atomicity_witness :
    (("B", initial_state "q" none []) ∈
        [("A", initial_state "q" none []), ("B", initial_state "q" none [])] ∧
      c7stepf "B" (initial_state "q" none []) =
        .error { step := "B", cause := "boom" }) ∧
    (execFrom c7stepf oncoNext (0 + 1) 0
        [("A", initial_state "q" none []), ("B", initial_state "q" none [])]
        (initial_state "q" none []) =
      ⟨.failed (collectFailures (dispatch c7stepf
          [("A", initial_state "q" none []), ("B", initial_state "q" none [])])),
        [], []⟩ ∧
      StepFailure.mk "B" "boom" ∈ collectFailures (dispatch c7stepf
        [("A", initial_state "q" none []), ("B", initial_state "q" none [])])) :=
  ⟨⟨by decide, rfl⟩,
   superstep_barrier_atomicity c7stepf oncoNext 0 0
     [("A", initial_state "q" none []), ("B", initial_state "q" none [])]
     (initial_state "q" none []) "B" (initial_state "q" none [])
     { step := "B", cause := "boom" } (by decide) rfl⟩

/-- With an empty active set the executor is terminal regardless of fuel. -/
theorem execFrom_nil_active
    (stepf : String → OncoState → Except StepFailure PartialU)
    (next : List String → OncoState → RouteDecision)
    (fuel k : Nat) (s : OncoState) :
    execFrom stepf next fuel k [] s = ⟨.terminal s, [], []⟩ := by
  cases fuel <;> rfl

/-- Crash/resume composition: a run that crashes after exhausting `m`
supersteps of fuel, continued with `n` more supersteps from its pending
active set and crash State, behaves exactly like the uninterrupted
`m + n` run — same outcome, with the crashed prefix's checkpoints and
trace followed by the continuation's. -/
theorem execFrom_resume
    (stepf : String → OncoState → Except StepFailure PartialU)
    (next : List String → OncoState → RouteDecision) :
    ∀ (m n k : Nat) (active : List (String × OncoState)) (s : OncoState)
      (pend : List (String × OncoState)) (s2 : OncoState)
      (cps : List (Nat × OncoState × List (String × OncoState)))
      (tr : List (List String)),
      execFrom stepf next m k active s = ⟨.crashed pend s2, cps, tr⟩ →
      execFrom stepf next (m + n) k active s =
        ⟨(execFrom stepf next n (k + tr.length) pend s2).outcome,
          cps ++ (execFrom stepf next n (k + tr.length) pend s2).checkpoints,
          tr ++ (execFrom stepf next n (k + tr.length) pend s2).trace⟩ := by
  intro m
  induction m with
  | zero =>
    intro n k active s pend s2 cps tr h
    by_cases hact : active = []
    · rw [hact, execFrom_nil_active] at h
      exact absurd (congrArg RunLog.outcome h) (by simp)
    · have h0 : execFrom stepf next 0 k active s = ⟨.crashed active s, [], []⟩ := by
        simp [execFrom, hact]
      rw [h0] at h
      simp only [RunLog.mk.injEq, Outcome.crashed.injEq] at h
      obtain ⟨⟨hp, hs⟩, hc, ht⟩ := h
      subst hp
      subst hs
      rw [← hc, ← ht]
      simp only [Nat.zero_add, List.length_nil, Nat.add_zero, List.nil_append]
  | succ m ih =>
    intro n k active s pend s2 cps tr h
    by_cases hact : active = []
    · rw [hact, execFrom_nil_active] at h
      exact absurd (congrArg RunLog.outcome h) (by simp)
    · simp only [execFrom] at h
      rw [if_neg hact] at h
      have harith : m + 1 + n = m + n + 1 := by omega
      rw [harith]
      simp only [execFrom]
      rw [if_neg hact]
      cases hss : superstep stepf s active with
      | error errs =>
        rw [hss] at h
        exact absurd (congrArg RunLog.outcome h) (by simp)
      | ok s3 =>
        rw [hss] at h
        simp only [RunLog.mk.injEq] at h
        obtain ⟨ho, hc, ht⟩ := h
        have hcrash : execFrom stepf next m (k + 1)
            (nextActiveOf (next (active.map Prod.fst) s3) s3) s3 =
            ⟨.crashed pend s2,
              (execFrom stepf next m (k + 1)
                (nextActiveOf (next (active.map Prod.fst) s3) s3) s3).checkpoints,
              (execFrom stepf next m (k + 1)
                (nextActiveOf (next (active.map Prod.fst) s3) s3) s3).trace⟩ := by
          rw [← ho]
        have hstep := ih n (k + 1)
          (nextActiveOf (next (active.map Prod.fst) s3) s3) s3 pend s2
          (execFrom stepf next m (k + 1)
            (nextActiveOf (next (active.map Prod.fst) s3) s3) s3).checkpoints
          (execFrom stepf next m (k + 1)
            (nextActiveOf (next (active.map Prod.fst) s3) s3) s3).trace hcrash
        dsimp only
        rw [hstep, ← hc, ← ht]
        have hlen : k + ((active.map Prod.fst ::
            (execFrom stepf next m (k + 1)
              (nextActiveOf (next (active.map Prod.fst) s3) s3) s3).trace).length) =
            k + 1 + (execFrom stepf next m (k + 1)
              (nextActiveOf (next (active.map Prod.fst) s3) s3) s3).trace.length := by
          simp only [List.length_cons]
          omega
        rw [hlen]
        simp only [List.cons_append]

/-- The last checkpoint written by a crashed run records the superstep
index reached (start index plus executed supersteps), the crash State
and the pending active set — unless the run crashed before completing
any superstep, in which case nothing was checkpointed and the pending
work is the original active set. -/
theorem execFrom_crashed_last_checkpoint
    (stepf : String → OncoState → Except StepFailure PartialU)
    (next : List String → OncoState → RouteDecision) :
    ∀ (fuel k : Nat) (active : List (String × OncoState)) (s : OncoState)
      (pend : List (String × OncoState)) (s2 : OncoState)
      (cps : List (Nat × OncoState × List (String × OncoState)))
      (tr : List (List String)),
      execFrom stepf next fuel k active s = ⟨.crashed pend s2, cps, tr⟩ →
      (cps = [] ∧ tr = [] ∧ pend = active ∧ s2 = s) ∨
      cps.getLast? = some (k + tr.length, s2, pend) := by
  intro fuel
  induction fuel with
  | zero =>
    intro k active s pend s2 cps tr h
    by_cases hact : active = []
    · rw [hact, execFrom_nil_active] at h
      exact absurd (congrArg RunLog.outcome h) (by simp)
    · have h0 : execFrom stepf next 0 k active s = ⟨.crashed active s, [], []⟩ := by
        simp [execFrom, hact]
      rw [h0] at h
      simp only [RunLog.mk.injEq, Outcome.crashed.injEq] at h
      obtain ⟨⟨hp, hs⟩, hc, ht⟩ := h
      exact Or.inl ⟨hc.symm, ht.symm, hp.symm, hs.symm⟩
  | succ fuel ih =>
    intro k active s pend s2 cps tr h
    by_cases hact : active = []
    · rw [hact, execFrom_nil_active] at h
      exact absurd (congrArg RunLog.outcome h) (by simp)
    · simp only [execFrom] at h
      rw [if_neg hact] at h
      cases hss : superstep stepf s active with
      | error errs =>
        rw [hss] at h
        exact absurd (congrArg RunLog.outcome h) (by simp)
      | ok s3 =>
        rw [hss] at h
        simp only [RunLog.mk.injEq] at h
        obtain ⟨ho, hc, ht⟩ := h
        have hcrash : execFrom stepf next fuel (k + 1)
            (nextActiveOf (next (active.map Prod.fst) s3) s3) s3 =
            ⟨.crashed pend s2,
              (execFrom stepf next fuel (k + 1)
                (nextActiveOf (next (active.map Prod.fst) s3) s3) s3).checkpoints,
              (execFrom stepf next fuel (k + 1)
                (nextActiveOf (next (active.map Prod.fst) s3) s3) s3).trace⟩ := by
          rw [← ho]
        right
        rw [← hc, ← ht]
        rcases ih (k + 1) (nextActiveOf (next (active.map Prod.fst) s3) s3) s3
          pend s2
          (execFrom stepf next fuel (k + 1)
            (nextActiveOf (next (active.map Prod.fst) s3) s3) s3).checkpoints
          (execFrom stepf next fuel (k + 1)
            (nextActiveOf (next (active.map Prod.fst) s3) s3) s3).trace hcrash with
          hfst | hlast
        · obtain ⟨hc0, ht0, hp0, hs0⟩ := hfst
          rw [hc0, ht0, hp0, hs0]
          simp
        · cases hcps : (execFrom stepf next fuel (k + 1)
              (nextActiveOf (next (active.map Prod.fst) s3) s3) s3).checkpoints with
          | nil =>
            rw [hcps] at hlast
            simp at hlast
          | cons c cs =>
            rw [hcps] at hlast
            rw [List.getLast?_cons_cons, hlast]
            simp only [List.length_cons]
            have harith2 : k + 1 + (execFrom stepf next fuel (k + 1)
                (nextActiveOf (next (active.map Prod.fst) s3) s3) s3).trace.length =
                k + ((execFrom stepf next fuel (k + 1)
                  (nextActiveOf (next (active.map Prod.fst) s3) s3) s3).trace.length + 1) := by
              omega
            rw [harith2]

/-- C8: resumability.  If `invoke(init, sid)` crashes after exhausting
`k` supersteps of fuel, the checkpoint store holds the crashed run's
last checkpoint `(tr.length, scrash, pend)`; re-invoking with the empty
partial State from that checkpoint produces the rest of the run exactly:
the uninterrupted `k + fuel` run has the same outcome (hence the same
terminal State when it terminates) with trace `tr ++ resumed.trace`, so
the re-invocation replays none of the `tr` supersteps already executed,
given identical step outputs (`stepf`). -/
theorem invoke_resumable
    (stepf : String → OncoState → Except StepFailure PartialU)
    (next : List String → OncoState → RouteDecision)
    (entry : String) (init : OncoState) (k fuel : Nat)
    (pend : List (String × OncoState)) (scrash : OncoState)
    (cps : List (Nat × OncoState × List (String × OncoState)))
    (tr : List (List String))
    (hcrash : invokeFresh stepf next entry init k = ⟨.crashed pend scrash, cps, tr⟩) :
    invokeFresh stepf next entry init (k + fuel) =
      ⟨(invokeResume stepf next (tr.length, scrash, pend) emptyU fuel).outcome,
        cps ++ (invokeResume stepf next (tr.length, scrash, pend) emptyU fuel).checkpoints,
        tr ++ (invokeResume stepf next (tr.length, scrash, pend) emptyU fuel).trace⟩ ∧
    (cps ≠ [] → cps.getLast? = some (tr.length, scrash, pend)) := by
  have hres : invokeResume stepf next (tr.length, scrash, pend) emptyU fuel =
      execFrom stepf next fuel tr.length pend scrash := by
    unfold invokeResume
    rw [applyUpdate_emptyU]
  constructor
  · rw [hres]
    unfold invokeFresh at hcrash ⊢
    have hsplit := execFrom_resume stepf next k fuel 0 [(entry, init)] init
      pend scrash cps tr hcrash
    rw [hsplit]
    simp only [Nat.zero_add]
  · intro hne
    rcases execFrom_crashed_last_checkpoint stepf next k 0 [(entry, init)] init
        pend scrash cps tr hcrash with ⟨hc0, _, _, _⟩ | hlast
    · exact absurd hc0 hne
    · rw [hlast]
      simp only [Nat.zero_add]

/-- Step registry for the C8 witness: every step returns the empty
partial update. -/
def c8stepf : String → OncoState → Except StepFailure PartialU :=
  fun _ _ => .ok emptyU

/-- Graph for the C8 witness: entry step `a`, then `b`, then terminal. -/
def c8next : List String → OncoState → RouteDecision := fun prev _ =>
  if prev = ["a"] then .single "b" else .terminal

/-- The State checkpointed after the first superstep of the C8 witness
run. -/
def c8s1 : OncoState :=
  { initial_state "q" none [] with agents_completed := ["a"] }

/-- Witness for C8: the concrete two-superstep run crashed after one
superstep and resumed with two supersteps of fuel. -/
theorem invoke_resumable_witness :
    (invokeFresh c8stepf c8next "a" (initial_state "q" none []) 1 =
      ⟨.crashed [("b", c8s1)] c8s1, [(1, c8s1, [("b", c8s1)])], [["a"]]⟩) ∧
    (invokeFresh c8stepf c8next "a" (initial_state "q" none []) (1 + 2) =
      ⟨(invokeResume c8stepf c8next
          (([["a"]] : List (List String)).length, c8s1, [("b", c8s1)]) emptyU 2).outcome,
        [(1, c8s1, [("b", c8s1)])] ++ (invokeResume c8stepf c8next
          (([["a"]] : List (List String)).length, c8s1, [("b", c8s1)]) emptyU 2).checkpoints,
        [["a"]] ++ (invokeResume c8stepf c8next
          (([["a"]] : List (List String)).length, c8s1, [("b", c8s1)]) emptyU 2).trace⟩ ∧
     ([(1, c8s1, [("b", c8s1)])] ≠ ([] : List (Nat × OncoState × List (String × OncoState))) →
      [(1, c8s1, [("b", c8s1)])].getLast? =
        some (([["a"]] : List (List String)).length, c8s1, [("b", c8s1)]))) :=
  ⟨by decide,
   invoke_resumable c8stepf c8next "a" (initial_state "q" none []) 1 2
     [("b", c8s1)] c8s1 [(1, c8s1, [("b", c8s1)])] [["a"]] (by decide)⟩

/-- The evidence entries emitted for one query carry exactly the URLs
not yet seen, first occurrences only, in result order. -/
theorem innerDedup_urls (retrieved : String) :
    ∀ (rs : List SearchResult) (seen : List String),
      (innerDedup retrieved rs seen).2.map (fun e => e.source) =
        firstOcc (rs.map (fun r => r.url)) seen := by
  intro rs
  induction rs with
  | nil => intro seen; rfl
  | cons r t ih =>
    intro seen
    by_cases h : r.url ∈ seen
    · simp [innerDedup, firstOcc, h, ih]
    · simp [innerDedup, firstOcc, h, ih]

/-- The `seen_urls` set grows by exactly the newly emitted URLs. -/
theorem innerDedup_seen (retrieved : String) :
    ∀ (rs : List SearchResult) (seen : List String),
      (innerDedup retrieved rs seen).1 =
        seen ++ firstOcc (rs.map (fun r => r.url)) seen := by
  intro rs
  induction rs with
  | nil => intro seen; simp [innerDedup, firstOcc]
  | cons r t ih =>
    intro seen
    by_cases h : r.url ∈ seen
    · simp [innerDedup, firstOcc, h, ih]
    · simp [innerDedup, firstOcc, h, ih, List.append_assoc]

/-- First-occurrence filtering distributes over concatenation, threading
the seen set. -/
theorem firstOcc_append (b : List String) :
    ∀ (a : List String) (seen : List String),
      firstOcc (a ++ b) seen =
        firstOcc a seen ++ firstOcc b (seen ++ firstOcc a seen) := by
  intro a
  induction a with
  | nil => intro seen; simp [firstOcc]
  | cons u t ih =>
    intro seen
    by_cases h : u ∈ seen
    · simp [firstOcc, h, ih]
    · simp [firstOcc, h, ih, List.append_assoc]

/-- First-occurrence filtering emits no element of the seen set and no
duplicates. -/
theorem firstOcc_nodup_and_fresh :
    ∀ (l seen : List String),
      (∀ u, u ∈ firstOcc l seen → ¬ u ∈ seen) ∧ (firstOcc l seen).Nodup := by
  intro l
  induction l with
  | nil =>
    intro seen
    exact ⟨fun u hu => absurd hu (List.not_mem_nil u), List.nodup_nil⟩
  | cons a t ih =>
    intro seen
    by_cases h : a ∈ seen
    · simpa [firstOcc, h] using ih seen
    · constructor
      · intro u hu
        simp only [firstOcc, if_neg h, List.mem_cons] at hu
        rcases hu with rfl | hu
        · exact h
        · intro hus
          exact (ih (seen ++ [a])).1 u hu (by simp [hus])
      · simp only [firstOcc, if_neg h, List.nodup_cons]
        refine ⟨fun hmem => ?_, (ih (seen ++ [a])).2⟩
        exact (ih (seen ++ [a])).1 a hmem (by simp)

/-- The URLs of the full dedup pass are the first occurrences of the
successful results' URLs in query order. -/
theorem dedupLoop_urls (retrieved : String) :
    ∀ (all : List (Except Unit (List SearchResult))) (seen : List String),
      (dedupLoop retrieved all seen).map (fun e => e.source) =
        firstOcc (urlsOf all) seen := by
  intro all
  induction all with
  | nil => intro seen; rfl
  | cons r rest ih =>
    intro seen
    cases r with
    | error e => simp [dedupLoop, urlsOf, ih]
    | ok results =>
      simp only [dedupLoop]
      rw [List.map_append, innerDedup_urls, innerDedup_seen, ih]
      rw [show urlsOf (Except.ok results :: rest) =
        results.map (fun x => x.url) ++ urlsOf rest from by simp [urlsOf]]
      rw [firstOcc_append]

/-- A failed query contributes nothing and leaves the shared seen set
untouched. -/
theorem dedupLoop_skip_error (retrieved : String) (e : Unit)
    (ys : List (Except Unit (List SearchResult))) :
    ∀ (xs : List (Except Unit (List SearchResult))) (seen : List String),
      dedupLoop retrieved (xs ++ .error e :: ys) seen =
        dedupLoop retrieved (xs ++ ys) seen := by
  intro xs
  induction xs with
  | nil => intro seen; rfl
  | cons x t ih =>
    intro seen
    cases x with
    | error e2 =>
      simp only [List.cons_append, dedupLoop, List.append_eq]
      rw [ih]
    | ok results =>
      simp only [List.cons_append, dedupLoop, List.append_eq]
      rw [ih]

/-- C9: the evidence list returned by `research_agent` has pairwise
distinct source URLs; its URLs are exactly the first occurrences, in
query order, of the successful searches' result URLs; and a query whose
search raised an exception contributes no entries. -/
theorem research_agent_dedup (retrieved : String)
    (all_results : List (Except Unit (List SearchResult))) :
    ((research_agent retrieved all_results).evidence.map
      (fun e => e.source)).Nodup ∧
    (research_agent retrieved all_results).evidence.map (fun e => e.source) =
      firstOcc (urlsOf all_results) [] ∧
    (∀ (xs ys : List (Except Unit (List SearchResult))) (e : Unit),
      dedupEvidence retrieved (xs ++ .error e :: ys) =
        dedupEvidence retrieved (xs ++ ys)) := by
  have hev : (research_agent retrieved all_results).evidence =
      dedupEvidence retrieved all_results := rfl
  refine ⟨?_, ?_, ?_⟩
  · rw [hev]
    unfold dedupEvidence
    rw [dedupLoop_urls]
    exact (firstOcc_nodup_and_fresh (urlsOf all_results) []).2
  · rw [hev]
    exact dedupLoop_urls retrieved all_results []
  · intro xs ys e
    unfold dedupEvidence
    exact dedupLoop_skip_error retrieved e ys xs []
